import Mathlib

/-!
Verification development for the LLM agent/tool-calling orchestration layer of
the desktop-assistant repository.  The definitions below are a shallow
embedding of `src/modules/llm_client.py` and `src/modules/system_tools.py`:
pure Python functions become Lean functions, the stateful agent loop becomes
explicit state passing over a `LoopState`, network and capability effects are
abstracted as environment oracles, and fallible Python code returns `Option`
or explicit result variants.
-/

namespace AiAssistant

/-- Left brace character, written via its code point. -/
def lbraceChar : Char := Char.ofNat 123

/-- Right brace character, written via its code point. -/
def rbraceChar : Char := Char.ofNat 125

/-- Single-quote character, written via its code point. -/
def squoteChar : Char := Char.ofNat 39

/-! ## JSON values

A model of the Python values produced by `json.loads`: `None`, booleans,
numbers (kept as their raw source text, since no code under verification
inspects numeric values), strings, lists and dicts (association lists in
insertion order; duplicate keys keep the last value, as in CPython). -/

inductive Json where
  | null
  | bool (b : Bool)
  | num (raw : String)
  | str (s : String)
  | arr (elems : List Json)
  | obj (members : List (String × Json))
deriving Repr

mutual

def Json.beq : Json → Json → Bool
  | .null, .null => true
  | .bool a, .bool b => a == b
  | .num a, .num b => a == b
  | .str a, .str b => a == b
  | .arr a, .arr b => Json.beqList a b
  | .obj a, .obj b => Json.beqObj a b
  | _, _ => false

def Json.beqList : List Json → List Json → Bool
  | [], [] => true
  | a :: as, b :: bs => Json.beq a b && Json.beqList as bs
  | _, _ => false

def Json.beqObj : List (String × Json) → List (String × Json) → Bool
  | [], [] => true
  | (k, v) :: as, (k2, v2) :: bs => k == k2 && Json.beq v v2 && Json.beqObj as bs
  | _, _ => false

end

instance : BEq Json := ⟨Json.beq⟩

/-- Model of `d[k]` lookup on a `json.loads` dict: duplicate keys in the JSON
source leave the last value in the Python dict. -/
def jGet (kvs : List (String × Json)) (k : String) : Option Json :=
  match kvs with
  | [] => none
  | (k2, v) :: rest =>
    match jGet rest k with
    | some v2 => some v2
    | none => if k2 = k then some v else none

/-- Model of `k in d` on a dict. -/
def jHasKey (kvs : List (String × Json)) (k : String) : Bool :=
  kvs.any (fun p => p.1 == k)

/-- Model of `d.get k` on a `Json` value known to be a dict. -/
def Json.get (j : Json) (k : String) : Option Json :=
  match j with
  | .obj kvs => jGet kvs k
  | _ => none

/-- Python truthiness (`bool(v)`) of a JSON-decoded value. A finite number
is falsy exactly when its mantissa (the raw text before any exponent marker)
contains no nonzero digit; `NaN` and the infinities are truthy. -/
def pyFalsy : Json → Bool
  | .null => true
  | .bool b => !b
  | .num raw =>
    if raw = "NaN" || raw = "Infinity" || raw = "-Infinity" then false
    else (raw.data.takeWhile (fun c => c ≠ 'e' && c ≠ 'E')).all
      (fun c => !(c.isDigit && c ≠ '0'))
  | .str s => s = ""
  | .arr xs => xs.isEmpty
  | .obj kvs => kvs.isEmpty

mutual

/-- Python `repr` of a JSON-decoded value (used by `str` on containers).
String escaping inside `repr` is not modelled; no code under verification
depends on it. -/
def pyRepr : Json → String
  | .null => "None"
  | .bool true => "True"
  | .bool false => "False"
  | .num raw => raw
  | .str s => String.singleton squoteChar ++ s ++ String.singleton squoteChar
  | .arr xs => "[" ++ String.intercalate ", " (pyReprList xs) ++ "]"
  | .obj kvs => "\x7b" ++ String.intercalate ", " (pyReprObj kvs) ++ "\x7d"

def pyReprList : List Json → List String
  | [] => []
  | x :: xs => pyRepr x :: pyReprList xs

def pyReprObj : List (String × Json) → List String
  | [] => []
  | (k, v) :: kvs =>
    (String.singleton squoteChar ++ k ++ String.singleton squoteChar ++ ": " ++ pyRepr v)
      :: pyReprObj kvs

end

/-- Python `str(v)` of a JSON-decoded value. -/
def pyStr : Json → String
  | .str s => s
  | v => pyRepr v

/-! ## Model of `json.dumps(..., ensure_ascii=False)` -/

/-- Escape one character for a JSON string literal. -/
def dumpJChar (c : Char) : String :=
  if c = '"' then "\\\""
  else if c = '\\' then "\\\\"
  else if c = '\n' then "\\n"
  else if c = '\r' then "\\r"
  else if c = '\t' then "\\t"
  else if c.toNat < 32 then
    "\\u00" ++ String.singleton (Nat.digitChar (c.toNat / 16)) ++
      String.singleton (Nat.digitChar (c.toNat % 16))
  else String.singleton c

/-- Serialize a string as a JSON string literal (`ensure_ascii=False`: non-ASCII
characters are emitted verbatim). -/
def dumpJStr (s : String) : String :=
  "\"" ++ String.join (s.data.map dumpJChar) ++ "\""

mutual

/-- Model of `json.dumps(v, ensure_ascii=False)` with the default separators. -/
def json_dumps : Json → String
  | .null => "null"
  | .bool true => "true"
  | .bool false => "false"
  | .num raw => raw
  | .str s => dumpJStr s
  | .arr xs => "[" ++ String.intercalate ", " (jDumpList xs) ++ "]"
  | .obj kvs => "\x7b" ++ String.intercalate ", " (jDumpObj kvs) ++ "\x7d"

def jDumpList : List Json → List String
  | [] => []
  | x :: xs => json_dumps x :: jDumpList xs

def jDumpObj : List (String × Json) → List String
  | [] => []
  | (k, v) :: kvs => (dumpJStr k ++ ": " ++ json_dumps v) :: jDumpObj kvs

end

/-! ## Model of `json.loads`

A fuel-indexed recursive-descent parser for the JSON grammar accepted by
CPython's `json.loads` (including the `NaN`/`Infinity` extensions).  The fuel
supplied by `json_loads` strictly exceeds any possible recursion depth, so the
model is total on all inputs. -/

/-- JSON whitespace accepted between tokens by `json.loads`. -/
def jws (c : Char) : Bool :=
  c = ' ' || c = '\t' || c = '\n' || c = '\r'

def skipJws : List Char → List Char
  | [] => []
  | c :: cs => if jws c then skipJws cs else c :: cs

/-- Hexadecimal digit value. -/
def hexVal (c : Char) : Option Nat :=
  if c.isDigit then some (c.toNat - 48)
  else if 'a' ≤ c && c ≤ 'f' then some (c.toNat - 87)
  else if 'A' ≤ c && c ≤ 'F' then some (c.toNat - 55)
  else none

/-- Parse the body of a JSON string literal (the opening quote already
consumed); returns the decoded characters and the rest of the input.  Strict
mode: raw control characters are rejected. -/
def parseJStr : List Char → Option (List Char × List Char)
  | [] => none
  | '"' :: rest => some ([], rest)
  | '\\' :: e :: rest =>
    if e = 'u' then
      match rest with
      | h1 :: h2 :: h3 :: h4 :: rest2 =>
        match hexVal h1, hexVal h2, hexVal h3, hexVal h4 with
        | some a, some b, some c, some d =>
          (parseJStr rest2).map
            (fun p => (Char.ofNat (((a * 16 + b) * 16 + c) * 16 + d) :: p.1, p.2))
        | _, _, _, _ => none
      | _ => none
    else
      let esc : Option Char :=
        if e = '"' then some '"'
        else if e = '\\' then some '\\'
        else if e = '/' then some '/'
        else if e = 'b' then some '\x08'
        else if e = 'f' then some '\x0c'
        else if e = 'n' then some '\n'
        else if e = 'r' then some '\r'
        else if e = 't' then some '\t'
        else none
      match esc with
      | some c => (parseJStr rest).map (fun p => (c :: p.1, p.2))
      | none => none
  | c :: rest =>
    if c.toNat < 32 then none
    else (parseJStr rest).map (fun p => (c :: p.1, p.2))

/-- Parse a JSON number, returning its raw text.  A fractional part or
exponent is consumed only when syntactically complete, matching the regex
used by CPython's json scanner. -/
def parseJNum (cs : List Char) : Option (List Char × List Char) :=
  let (negPart, cs1) :=
    match cs with
    | '-' :: r => (['-'], r)
    | _ => ([], cs)
  match cs1 with
  | c :: rest =>
    if !c.isDigit then none
    else
      let (intPart, r1) :=
        if c = '0' then ([c], rest)
        else (c :: cs1.tail.takeWhile Char.isDigit, cs1.tail.dropWhile Char.isDigit)
      let (fracPart, r2) :=
        match r1 with
        | '.' :: d :: restF =>
          if d.isDigit then
            ('.' :: d :: restF.takeWhile Char.isDigit, restF.dropWhile Char.isDigit)
          else ([], r1)
        | _ => ([], r1)
      let (expPart, r3) :=
        match r2 with
        | e :: restE =>
          if e = 'e' || e = 'E' then
            match restE with
            | s :: d :: restE2 =>
              if (s = '+' || s = '-') && d.isDigit then
                (e :: s :: d :: restE2.takeWhile Char.isDigit,
                 restE2.dropWhile Char.isDigit)
              else if s.isDigit then
                (e :: s :: restE.tail.takeWhile Char.isDigit,
                 restE.tail.dropWhile Char.isDigit)
              else ([], r2)
            | _ => ([], r2)
          else ([], r2)
        | [] => ([], r2)
      some (negPart ++ intPart ++ fracPart ++ expPart, r3)
  | [] => none

mutual

def parseJVal : Nat → List Char → Option (Json × List Char)
  | 0, _ => none
  | fuel + 1, cs =>
    match skipJws cs with
    | [] => none
    | c :: rest =>
      if c = lbraceChar then parseJObj fuel rest
      else if c = '[' then parseJArr fuel rest
      else if c = '"' then
        (parseJStr rest).map (fun p => (Json.str (String.mk p.1), p.2))
      else if c = 't' then
        match rest with
        | 'r' :: 'u' :: 'e' :: r => some (.bool true, r)
        | _ => none
      else if c = 'f' then
        match rest with
        | 'a' :: 'l' :: 's' :: 'e' :: r => some (.bool false, r)
        | _ => none
      else if c = 'n' then
        match rest with
        | 'u' :: 'l' :: 'l' :: r => some (.null, r)
        | _ => none
      else if c = 'N' then
        match rest with
        | 'a' :: 'N' :: r => some (.num "NaN", r)
        | _ => none
      else if c = 'I' then
        match rest with
        | 'n' :: 'f' :: 'i' :: 'n' :: 'i' :: 't' :: 'y' :: r => some (.num "Infinity", r)
        | _ => none
      else if c = '-' then
        match rest with
        | 'I' :: 'n' :: 'f' :: 'i' :: 'n' :: 'i' :: 't' :: 'y' :: r =>
          some (.num "-Infinity", r)
        | _ => (parseJNum (c :: rest)).map (fun p => (Json.num (String.mk p.1), p.2))
      else (parseJNum (c :: rest)).map (fun p => (Json.num (String.mk p.1), p.2))

/-- Parse an object body, the opening brace already consumed. -/
def parseJObj : Nat → List Char → Option (Json × List Char)
  | 0, _ => none
  | fuel + 1, cs =>
    match skipJws cs with
    | c :: rest =>
      if c = rbraceChar then some (.obj [], rest)
      else parseJMembers fuel cs []
    | [] => none

def parseJMembers : Nat → List Char → List (String × Json) → Option (Json × List Char)
  | 0, _, _ => none
  | fuel + 1, cs, acc =>
    match skipJws cs with
    | '"' :: rest =>
      match parseJStr rest with
      | none => none
      | some (k, r1) =>
        match skipJws r1 with
        | ':' :: r2 =>
          match parseJVal fuel r2 with
          | none => none
          | some (v, r3) =>
            match skipJws r3 with
            | ',' :: r4 => parseJMembers fuel r4 (acc ++ [(String.mk k, v)])
            | c :: r4 =>
              if c = rbraceChar then some (.obj (acc ++ [(String.mk k, v)]), r4)
              else none
            | [] => none
        | _ => none
    | _ => none

/-- Parse an array body, the opening bracket already consumed. -/
def parseJArr : Nat → List Char → Option (Json × List Char)
  | 0, _ => none
  | fuel + 1, cs =>
    match skipJws cs with
    | ']' :: rest => some (.arr [], rest)
    | _ => parseJElems fuel cs []

def parseJElems : Nat → List Char → List Json → Option (Json × List Char)
  | 0, _, _ => none
  | fuel + 1, cs, acc =>
    match parseJVal fuel cs with
    | none => none
    | some (v, r1) =>
      match skipJws r1 with
      | ',' :: r2 => parseJElems fuel r2 (acc ++ [v])
      | ']' :: r2 => some (.arr (acc ++ [v]), r2)
      | _ => none

end

/-- Model of `json.loads`: parse exactly one JSON value, tolerating
surrounding whitespace and rejecting any trailing data. -/
def json_loads (s : String) : Option Json :=
  match parseJVal (2 * s.length + 8) s.data with
  | some (v, rest) => if (skipJws rest).isEmpty then some v else none
  | none => none

/-! ## Model of the directive extraction regex

`_parse_system_tool` and `_parse_tool_fetch` search the assistant text with
`re.search(r"MARKER\s*(\\x7b.*\\x7d)", text, re.DOTALL)` (braces written here
as code points).  Semantics modelled: leftmost viable start position; after
the literal marker, only whitespace may precede the opening brace; the greedy
`.*` makes the capture run to the LAST closing brace of the entire remaining
text. -/

/-- Characters matched by the regex class `\s` (ASCII portion, which is all
the source exercises). -/
def isPyWs (c : Char) : Bool :=
  c = ' ' || c = '\t' || c = '\n' || c = '\r' || c = '\x0b' || c = '\x0c'

/-- Longest prefix of `cs` ending at the last right brace of `cs`, if any:
this is what the greedy `.*` followed by a literal brace consumes. -/
def dropToLastRBrace (cs : List Char) : Option (List Char) :=
  match cs.reverse.dropWhile (fun c => c ≠ rbraceChar) with
  | [] => none
  | r => some r.reverse

/-- Attempt the regex match anchored at the start of `cs`. -/
def matchDirectiveAt (marker : List Char) (cs : List Char) : Option (List Char) :=
  if marker.isPrefixOf cs then
    match (cs.drop marker.length).dropWhile isPyWs with
    | c :: body =>
      if c = lbraceChar then (dropToLastRBrace body).map (fun b => lbraceChar :: b)
      else none
    | [] => none
  else none

/-- `re.search`: try every start position from the left. -/
def searchDirective (marker : List Char) : List Char → Option (List Char)
  | [] => none
  | c :: cs =>
    match matchDirectiveAt marker (c :: cs) with
    | some p => some p
    | none => searchDirective marker cs

/-- The captured group of the directive regex, as a string. -/
def extractDirectiveJson (marker : String) (text : String) : Option String :=
  (searchDirective marker.data text.data).map String.mk

/-- The `isinstance(params, dict) and key in params` check applied to a
`json.loads` outcome: the parsed value is kept only when it is a dict
carrying the required key; a parse failure or any other shape yields
`none`. -/
def requireKeyObj (key : String) : Option Json → Option Json
  | some (.obj kvs) => if jHasKey kvs key then some (.obj kvs) else none
  | _ => none

/-- Model of `OllamaClient._parse_system_tool`: find `TOOL:SYSTEM`, capture
the brace group, `json.loads` it, and require a dict with a `function` key;
any failure yields no directive. -/
def _parse_system_tool (text : String) : Option Json :=
  if text = "" then none
  else
    match extractDirectiveJson "TOOL:SYSTEM" text with
    | none => none
    | some payload => requireKeyObj "function" (json_loads payload)

/-- Model of `OllamaClient._parse_tool_fetch`: same shape with marker
`TOOL:FETCH` and required key `url`. -/
def _parse_tool_fetch (text : String) : Option Json :=
  if text = "" then none
  else
    match extractDirectiveJson "TOOL:FETCH" text with
    | none => none
    | some payload => requireKeyObj "url" (json_loads payload)

/-! ## Conversation history -/

/-- A conversation message.  The wall-clock `timestamp` set by
`_add_message` is metadata with no effect on behaviour and is not modelled. -/
structure Message where
  role : String
  content : String
deriving DecidableEq, Repr

/-- Model of the Python slice `xs[start:]` for an arbitrary (possibly
negative or zero) integer start. -/
def pyListFrom (xs : List Message) (start : Int) : List Message :=
  if start < 0 then xs.drop (max 0 ((xs.length : Int) + start)).toNat
  else xs.drop start.toNat

/-- Model of `OllamaClient._add_message`: append, then if the log exceeds
`max_history`, keep every system message followed by the slice
`other_msgs[-(max_history - len(system_msgs)):]` of non-system messages. -/
def _add_message (maxHistory : Nat) (hist : List Message) (role content : String) :
    List Message :=
  let h := hist ++ [⟨role, content⟩]
  if h.length > maxHistory then
    let systemMsgs := h.filter (fun m => m.role == "system")
    let otherMsgs := h.filter (fun m => !(m.role == "system"))
    systemMsgs ++ pyListFrom otherMsgs (-((maxHistory : Int) - (systemMsgs.length : Int)))
  else h

/-- Fold a sequence of `(role, content)` appends through `_add_message`,
starting from the empty log. -/
def appendAll (maxHistory : Nat) (msgs : List Message) : List Message :=
  msgs.foldl (fun h m => _add_message maxHistory h m.role m.content) []

/-- The system messages of a log, in order. -/
def sysFilter (l : List Message) : List Message :=
  l.filter (fun m => m.role == "system")

/-- The non-system messages of a log, in order. -/
def othFilter (l : List Message) : List Message :=
  l.filter (fun m => !(m.role == "system"))

/-- The last `k` elements of a list (all of it when `k ≥ length`). -/
def lastN (k : Nat) (xs : List Message) : List Message :=
  xs.drop (xs.length - k)

/-! ## Model of `OllamaClient._post_with_retries` -/

/-- What the server/network does on one POST attempt. -/
inductive AttemptOutcome where
  | status (code : Nat)
  | netError (msg : String)
deriving DecidableEq, Repr

/-- The exception classes that can be recorded in `last_exc` and raised. -/
inductive RetryError where
  | httpError (code : Nat)
  | netError (msg : String)
  | unknown
deriving DecidableEq, Repr

/-- Outcome of `_post_with_retries`: a returned response (its status) or the
exception raised after exhausting the attempts. -/
inductive PostResult where
  | ok (code : Nat)
  | raised (e : RetryError)
deriving DecidableEq, Repr

/-- The `while attempt < max_retries` loop.  A 5xx status records an
`HTTPError` and retries; any other status goes through `raise_for_status`,
whose `HTTPError` for 4xx is itself a `RequestException` caught by the same
handler, so 4xx also records and retries; a network-level
`RequestException` records and retries; a status below 400 is returned. -/
def postRetryGo (outcomes : Nat → AttemptOutcome) :
    Nat → Nat → Option RetryError → PostResult × Nat
  | attempt, 0, lastExc => (.raised (lastExc.getD .unknown), attempt)
  | attempt, fuel + 1, _lastExc =>
    match outcomes attempt with
    | .status c =>
      if 500 ≤ c ∧ c < 600 then
        postRetryGo outcomes (attempt + 1) fuel (some (.httpError c))
      else if 400 ≤ c ∧ c < 600 then
        postRetryGo outcomes (attempt + 1) fuel (some (.httpError c))
      else (.ok c, attempt + 1)
    | .netError m => postRetryGo outcomes (attempt + 1) fuel (some (.netError m))

/-- Model of `_post_with_retries` over an oracle giving each attempt's
outcome; also returns the number of POST attempts actually issued.
(`_get_with_retries` has the identical retry structure.) -/
def _post_with_retries (outcomes : Nat → AttemptOutcome) (maxRetries : Nat) :
    PostResult × Nat :=
  postRetryGo outcomes 0 maxRetries none

/-! ## File capabilities from `src/modules/system_tools.py`

The filesystem is modelled as a finite map from path to content; the time,
weather, network and shell capabilities perform external effects and appear
only through the capability-outcome oracle of the agent loop. -/

/-- A filesystem: association list from path to file content. -/
structure FS where
  files : List (String × String)
deriving DecidableEq, Repr

def fsGet (fs : FS) (p : String) : Option String :=
  (fs.files.find? (fun q => q.1 == p)).map (fun q => q.2)

def fsSet (fs : FS) (p c : String) : FS :=
  ⟨(fs.files.filter (fun q => !(q.1 == p))) ++ [(p, c)]⟩

def fsRemove (fs : FS) (p : String) : FS :=
  ⟨fs.files.filter (fun q => !(q.1 == p))⟩

/-- Model of Python `str.upper` (ASCII portion, which is all the protected
path check exercises). -/
def pyUpper (s : String) : String := String.mk (s.data.map Char.toUpper)

/-- The protected-path test `file_path.upper().startswith(chr(67) + ":\\")`
shared by `write_file` and `delete_file`. -/
def isProtectedPath (p : String) : Bool :=
  "C:\\".data.isPrefixOf (pyUpper p).data

/-- Basename of a path: the part after the last `\\` or `/` separator
(`os.path.basename` under ntpath). -/
def pyBasename (p : String) : String :=
  String.mk (((p.data.reverse.takeWhile (fun c => c ≠ '\\' && c ≠ '/'))).reverse)

/-- Split around the LAST dot of a separator-free name, if any. -/
def splitLastDot : List Char → Option (List Char × List Char)
  | [] => none
  | c :: cs =>
    match splitLastDot cs with
    | some (b, a) => some (c :: b, a)
    | none => if c = '.' then some ([], cs) else none

/-- True when `os.path.splitext(name)` yields an empty extension for a
separator-free `name`: no dot at all, or only leading dots before the last
dot. -/
def splitextExtIsEmpty (name : List Char) : Bool :=
  match splitLastDot name with
  | none => true
  | some (b, _) => b.all (fun c => c = '.')

/-- Result dict of `write_file` when the path is protected. -/
def writeConfirmObj (file_path content : String) : Json :=
  .obj [("success", .bool false),
        ("error", .str ("需要用户确认: 正在尝试写入C盘文件: " ++ file_path)),
        ("requires_confirmation", .bool true),
        ("file_path", .str file_path),
        ("content", .str content)]

/-- Model of `SystemTools.write_file` (default encoding `utf-8`): a protected
path short-circuits with a confirmation-required result and no mutation;
otherwise the `.txt` extension is defaulted, the file is written (mode `w`
overwrites, `a` appends) and a success dict with the byte size is returned.
Directory creation has no observable effect on the path→content map. -/
def write_file (fs : FS) (file_path content : String) (mode : String) : FS × Json :=
  if isProtectedPath file_path then
    (fs, writeConfirmObj file_path content)
  else
    let fileName := pyBasename file_path
    let finalPath := if splitextExtIsEmpty fileName.data then file_path ++ ".txt" else file_path
    if mode = "w" || mode = "a" then
      let oldContent := (fsGet fs finalPath).getD ""
      let newContent := if mode = "a" then oldContent ++ content else content
      (fsSet fs finalPath newContent,
       .obj [("success", .bool true),
             ("file_path", .str finalPath),
             ("size", .num (toString newContent.utf8ByteSize))])
    else
      (fs, .obj [("success", .bool false),
                 ("error", .str ("invalid mode: " ++ String.singleton squoteChar ++ mode ++
                   String.singleton squoteChar))])

/-- Result dict of `delete_file` when the path is protected. -/
def deleteConfirmObj (file_path : String) : Json :=
  .obj [("success", .bool false),
        ("error", .str ("需要用户确认: 正在尝试删除C盘文件: " ++ file_path)),
        ("requires_confirmation", .bool true),
        ("file_path", .str file_path)]

/-- Model of `SystemTools.delete_file`: a missing file is reported first,
then a protected path short-circuits with a confirmation-required result and
no mutation, otherwise the file is removed. -/
def delete_file (fs : FS) (file_path : String) : FS × Json :=
  if (fsGet fs file_path).isNone then
    (fs, .obj [("success", .bool false), ("error", .str ("文件不存在: " ++ file_path))])
  else if isProtectedPath file_path then
    (fs, deleteConfirmObj file_path)
  else
    (fsRemove fs file_path,
     .obj [("success", .bool true), ("file_path", .str file_path)])

/-- The keys of the `TOOL_FUNCTIONS` capability table. -/
def TOOL_FUNCTION_NAMES : List String :=
  ["get_time", "get_date", "get_system_info", "get_network_info", "get_location",
   "get_weather", "execute_command", "read_file", "write_file", "delete_file",
   "list_directory"]

/-! ## Model of `OllamaClient._execute_system_tool` and `_perform_fetch` -/

/-- Outcome of the call `TOOL_FUNCTIONS[name](**tool_params)`, the external
capability-table boundary of §6 of the spec: the capability (or the keyword
binding of `tool_params`) either returns a value or raises. -/
inductive CapOut where
  | returns (r : Json)
  | raises (msg : String)
deriving Repr

/-- Outcome of `_execute_system_tool` itself: a returned result dict, or an
uncaught `TypeError` (only possible from `name not in TOOL_FUNCTIONS` with an
unhashable `function` value, which precedes the internal `try`). -/
inductive ExecSysOut where
  | ok (r : Json)
  | raised (msg : String)
deriving Repr

/-- Python's `TypeError` text for hashing an unhashable value. -/
def unhashableMsg : Json → String
  | .arr _ => "unhashable type: " ++ String.singleton squoteChar ++ "list" ++
      String.singleton squoteChar
  | .obj _ => "unhashable type: " ++ String.singleton squoteChar ++ "dict" ++
      String.singleton squoteChar
  | _ => "unhashable type"

/-- The `tool_params = params.get("params", {})` line: the `params` entry of
the directive dict, defaulting to the empty dict. -/
def toolParamsOf (sp : Json) : Json :=
  (sp.get "params").getD (.obj [])

/-- Model of `_execute_system_tool`.  `params` is the parsed directive dict;
`cap` abstracts the dispatched capability call.  A falsy `function` value or
an unknown name yields an error dict without touching the table; an
exception inside the dispatched call is caught and converted to an error
dict; a result dict is returned unchanged whether or not it carries
`requires_confirmation` (the two branches differ only in logging). -/
def _execute_system_tool (params : Json) (cap : CapOut) : ExecSysOut :=
  match params.get "function" with
  | none => .ok (.obj [("success", .bool false), ("error", .str "缺少 function 参数")])
  | some fv =>
    if pyFalsy fv then
      .ok (.obj [("success", .bool false), ("error", .str "缺少 function 参数")])
    else
      match fv with
      | .arr _ => .raised (unhashableMsg fv)
      | .obj _ => .raised (unhashableMsg fv)
      | .str fname =>
        if fname ∈ TOOL_FUNCTION_NAMES then
          match cap with
          | .returns r => .ok r
          | .raises m => .ok (.obj [("success", .bool false), ("error", .str m)])
        else .ok (.obj [("success", .bool false), ("error", .str ("未知的工具函数: " ++ fname))])
      | _ => .ok (.obj [("success", .bool false),
          ("error", .str ("未知的工具函数: " ++ pyStr fv))])

/-- Outcome of the single outbound HTTP request inside `_perform_fetch`:
either a `RequestException`, or a response whose decoded text body is given
by the oracle (the content-type handling that produces `body` is outside the
model boundary). -/
inductive FetchHttpOut where
  | raised (msg : String)
  | resp (status : Nat) (body : String)
deriving Repr

/-- The result dict of a successful `_perform_fetch` (its unused `headers`
entry is not modelled). -/
structure FetchRes where
  status_code : Nat
  body : String
deriving Repr

/-- Model of `_perform_fetch`: raises `PermissionError` when the network is
disabled, `ValueError` when `url` is missing or falsy, otherwise performs
exactly one HTTP request.  The boolean records whether a request was
issued. -/
def _perform_fetch (allowNetwork : Bool) (params : Json) (out : FetchHttpOut) :
    Except String FetchRes × Bool :=
  if !allowNetwork then
    (.error "网络访问被禁用 (config.ollama.allow_network=False)", false)
  else
    match params.get "url" with
    | none => (.error "fetch 参数中缺少 url", false)
    | some u =>
      if pyFalsy u then (.error "fetch 参数中缺少 url", false)
      else
        match out with
        | .raised m => (.error m, true)
        | .resp status body => (.ok ⟨status, body⟩, true)

/-! ## Model of `OllamaClient.chat` with `stream=False`

This is the path the agent loop uses (`list(self.chat(msg, stream=False))`).
The transport outcome of the single `_post_with_retries` call, and the JSON
decode of the response body, are given by an oracle per call. -/

/-- Substring test, for the Python `in` operator on strings. -/
def listHasSub (needle : List Char) : List Char → Bool
  | [] => needle.isEmpty
  | c :: cs => needle.isPrefixOf (c :: cs) || listHasSub needle cs

/-- Transport outcome of one non-streaming chat POST. -/
inductive NSChatOut where
  | postFail (emsg : String)
  | jsonFail
  | jsonOk (data : Json)

/-- The `if 'message' in data: content = data['message']['content']` block,
executed inside a `try`: `.error ()` models an exception reaching the
surrounding handler, `.ok none` a body without a usable message, `.ok (some c)`
the extracted content value. -/
def extractContent (data : Json) : Except Unit (Option Json) :=
  match data with
  | .obj kvs =>
    if jHasKey kvs "message" then
      match jGet kvs "message" with
      | some (.obj mkvs) =>
        match jGet mkvs "content" with
        | some c => .ok (some c)
        | none => .error ()
      | some _ => .error ()
      | none => .ok none
    else .ok none
  | .str s => if listHasSub "message".data s.data then .error () else .ok none
  | .arr xs => if xs.any (fun x => x == Json.str "message") then .error () else .ok none
  | _ => .error ()

/-- What the generator `chat` does, as observed by `list(...)`: the tokens it
yields and the conversation history afterwards, or an exception escaping the
generator (`''.join` over a non-string content in the `finally` block). -/
inductive ChatNSResult where
  | yields (tokens : List String) (hist : List Message)
  | raises (hist : List Message)
deriving Repr

/-- Model of `chat(message, stream=False)`: the user message is appended
first; a transport or decode failure yields an error-marker string and, since
`full_response` stays empty, appends no assistant message; a decoded content
string is yielded and appended as an assistant message unless empty or
error-prefixed. -/
def chat (maxHistory : Nat) (hist : List Message) (message : String) (t : NSChatOut) :
    ChatNSResult :=
  let hist1 := _add_message maxHistory hist "user" message
  match t with
  | .postFail e => .yields ["错误: 请求错误: " ++ e] hist1
  | .jsonFail => .yields ["错误: 无法解析响应"] hist1
  | .jsonOk data =>
    match extractContent data with
    | .error _ => .yields ["错误: 无法解析响应"] hist1
    | .ok none => .yields [] hist1
    | .ok (some c) =>
      match c with
      | .str s =>
        let hist2 :=
          if s ≠ "" ∧ ¬ ("错误:".data.isPrefixOf s.data) then
            _add_message maxHistory hist1 "assistant" s
          else hist1
        .yields [s] hist2
      | _ => .raises hist1

/-! ## Model of `OllamaClient.chat_with_tools` -/

/-- The configuration snapshot the loop reads (`config.ollama.*` plus the
client's `max_history`, which the source fixes at 20). -/
structure LoopCfg where
  allowSystemTools : Bool
  allowNetwork : Bool
  maxToolIterations : Nat
  maxHistory : Nat

/-- The environment of external effects: per chat call, the transport
outcome and (if the call raises) the rendered exception text; per gateway
dispatch, the capability outcome; per outbound fetch, the HTTP outcome. -/
structure LoopEnv where
  transport : Nat → NSChatOut
  excText : Nat → String
  capOut : Nat → CapOut
  fetchHttp : Nat → FetchHttpOut

/-- Result of `chat_with_tools` together with the effect counters: Dispatch
phases (chat calls), gateway dispatches (`_execute_system_tool` calls) and
outbound fetch HTTP requests. -/
structure LoopResult where
  reply : String
  hist : List Message
  chatCalls : Nat
  sysExecs : Nat
  httpFetches : Nat
deriving DecidableEq, Repr

def sysDeniedNotice : String :=
  "\n\n[系统工具调用被禁止：请在设置中启用 allow_system_tools]"

def netDeniedNotice : String :=
  "\n\n[工具调用被禁止：请在设置中启用 allow_network]"

def iterLimitNotice : String :=
  "\n\n[工具迭代达到上限]"

/-- What one Inspect/Execute phase decides: terminate the turn with a final
string, or continue with the next synthesized user message. -/
inductive IterOut where
  | halt (reply : String)
  | next (nextMsg : String)
deriving Repr

/-- An Inspect/Execute phase outcome plus its effect increments. -/
structure IterDelta where
  out : IterOut
  dSys : Nat
  dFetch : Nat
deriving Repr

/-- The `safe_result` dict re-injected after a successful fetch:
url rendered with `str`, body truncated to 4000 characters. -/
def safeResult (fp : Json) (fr : FetchRes) : Json :=
  .obj [("tool", .str "fetch"),
        ("url", .str (pyStr ((fp.get "url").getD .null))),
        ("status_code", .num (toString fr.status_code)),
        ("body", .str (String.mk (fr.body.data.take 4000)))]

/-- Model of the Inspect/Execute part of one loop iteration, on the fully
materialized assistant reply.  `TOOL:SYSTEM` is parsed first; only when it
yields no directive is `TOOL:FETCH` consulted.  Permission gates: a parsed
system directive with `allow_system_tools` off, or a parsed fetch directive
with `allow_network` off, terminates with the reply plus a denial notice and
no execution. -/
def inspectAndAct (cfg : LoopCfg) (reply : String) (cap : CapOut) (fetchOut : FetchHttpOut) :
    IterDelta :=
  match _parse_system_tool reply with
  | some sp =>
    if !cfg.allowSystemTools then ⟨.halt (reply ++ sysDeniedNotice), 0, 0⟩
    else
      match _execute_system_tool sp cap with
      | .raised emsg =>
        ⟨.next ("[TOOL_RESULT] " ++
            json_dumps (.obj [("tool", .str "system"), ("error", .str emsg)])), 1, 0⟩
      | .ok r =>
        ⟨.next ("[TOOL_RESULT] " ++
            json_dumps (.obj [("tool", .str "system"),
                              ("function", (sp.get "function").getD .null),
                              ("result", r)])), 1, 0⟩
  | none =>
    match _parse_tool_fetch reply with
    | none => ⟨.halt reply, 0, 0⟩
    | some fp =>
      if !cfg.allowNetwork then ⟨.halt (reply ++ netDeniedNotice), 0, 0⟩
      else
        match _perform_fetch true fp fetchOut with
        | (.error e, requested) =>
          ⟨.next ("[TOOL_RESULT] " ++
              json_dumps (.obj [("tool", .str "fetch"), ("error", .str e)])), 0,
           if requested then 1 else 0⟩
        | (.ok fr, _) =>
          ⟨.next ("[TOOL_RESULT] " ++ json_dumps (safeResult fp fr)), 0, 1⟩

/-- The `for iteration in range(max_tool_iterations + 1)` loop.  The fuel is
the number of remaining iterations; exhausting it returns the last reply with
the iteration-limit notice appended. -/
def chatToolsGo (cfg : LoopCfg) (env : LoopEnv) :
    Nat → String → String → List Message → Nat → Nat → Nat → LoopResult
  | 0, _, finalReply, hist, chats, sys, fetches =>
    ⟨finalReply ++ iterLimitNotice, hist, chats, sys, fetches⟩
  | fuel + 1, currentMsg, _finalReply, hist, chats, sys, fetches =>
    match chat cfg.maxHistory hist currentMsg (env.transport chats) with
    | .raises hist2 => ⟨"错误: " ++ env.excText chats, hist2, chats + 1, sys, fetches⟩
    | .yields [] hist2 => ⟨"", hist2, chats + 1, sys, fetches⟩
    | .yields (t :: ts) hist2 =>
      let reply := String.join (t :: ts)
      match inspectAndAct cfg reply (env.capOut sys) (env.fetchHttp fetches) with
      | ⟨.halt r, ds, df⟩ => ⟨r, hist2, chats + 1, sys + ds, fetches + df⟩
      | ⟨.next nm, ds, df⟩ =>
        chatToolsGo cfg env fuel nm reply hist2 (chats + 1) (sys + ds) (fetches + df)

/-- Model of `chat_with_tools`: an empty message returns the empty string at
once with no effects; otherwise the loop runs with `max_tool_iterations + 1`
available Dispatch phases. -/
def chat_with_tools (cfg : LoopCfg) (env : LoopEnv) (hist : List Message)
    (message : String) : LoopResult :=
  if message = "" then ⟨"", hist, 0, 0, 0⟩
  else chatToolsGo cfg env (cfg.maxToolIterations + 1) message "" hist 0 0 0

/-! ## Derived observations and concrete scenarios used in the theorems -/

/-- The history a `chat` call left behind, in either outcome. -/
def histOf : ChatNSResult → List Message
  | .yields _ h => h
  | .raises h => h

/-- No assistant-role message in the log carries the transport error marker. -/
def noErrAssistant (h : List Message) : Bool :=
  h.all (fun m => !(m.role == "assistant") || !("错误:".data.isPrefixOf m.content.data))

/-- An attempt outcome that `_post_with_retries` records and retries:
a 4xx/5xx status or a network-level `RequestException`. -/
def retryFailure : AttemptOutcome → Bool
  | .status c => decide (400 ≤ c ∧ c < 600)
  | .netError _ => true

/-- The exception recorded for a failing attempt outcome. -/
def errOf : AttemptOutcome → RetryError
  | .status c => .httpError c
  | .netError m => .netError m

/-- A server that answers 503, 503, then 200. -/
def out503x2 : Nat → AttemptOutcome :=
  fun n => if n = 0 then .status 503 else if n = 1 then .status 503 else .status 200

/-- A transport outcome delivering a well-formed chat body with content `c`. -/
def msgObjOut (c : String) : NSChatOut :=
  .jsonOk (.obj [("message", .obj [("content", .str c)])])

/-- An assistant reply carrying a valid `TOOL:SYSTEM` directive. -/
def dirTextGetTime : String := "TOOL:SYSTEM \x7b\"function\": \"get_time\"\x7d"

/-- An assistant reply in which both markers occur textually but only the
`TOOL:FETCH` directive parses (the greedy capture after `TOOL:SYSTEM` fails). -/
def bothMarkersReply : String := "TOOL:SYSTEM TOOL:FETCH \x7b\"url\": \"http://x\"\x7d"

/-- A backing service whose every reply is `dirTextGetTime`. -/
def envAllSys : LoopEnv where
  transport := fun _ => msgObjOut dirTextGetTime
  excText := fun _ => ""
  capOut := fun _ => .returns (.obj [("success", .bool true)])
  fetchHttp := fun _ => .raised ""

/-- Configuration with both tool permissions granted and
`max_tool_iterations = 2`. -/
def cfgOpen : LoopCfg := ⟨true, true, 2, 20⟩

/-- Configuration with both tool permissions denied and
`max_tool_iterations = 2`. -/
def cfgDenied : LoopCfg := ⟨false, false, 2, 20⟩

/-- Twenty system appends followed by one user append. -/
def c5edge : List Message := List.replicate 20 ⟨"system", "s"⟩ ++ [⟨"user", "u"⟩]

/-- One system append followed by four user appends. -/
def msgs5 : List Message :=
  [⟨"system", "s"⟩, ⟨"user", "u1"⟩, ⟨"user", "u2"⟩, ⟨"user", "u3"⟩, ⟨"user", "u4"⟩]

end AiAssistant

namespace AiAssistant

/-! ## Helper lemmas -/

theorem pyListFrom_mem {xs : List Message} {s : Int} {m : Message}
    (h : m ∈ pyListFrom xs s) : m ∈ xs := by
  unfold pyListFrom at h
  split at h <;> exact List.mem_of_mem_drop h

/-- Let-free unfolding of `_add_message`. -/
theorem _add_message_eq (maxH : Nat) (hist : List Message) (r c : String) :
    _add_message maxH hist r c =
      if (hist ++ [Message.mk r c]).length > maxH then
        sysFilter (hist ++ [Message.mk r c]) ++
          pyListFrom (othFilter (hist ++ [Message.mk r c]))
            (-((maxH : Int) - ((sysFilter (hist ++ [Message.mk r c])).length : Int)))
      else hist ++ [Message.mk r c] := rfl

theorem mem_add_message {maxH : Nat} {hist : List Message} {r c : String} {m : Message}
    (h : m ∈ _add_message maxH hist r c) : m ∈ hist ∨ m = ⟨r, c⟩ := by
  rw [_add_message_eq] at h
  split at h
  · rcases List.mem_append.mp h with h1 | h1
    · exact (List.mem_append.mp (List.mem_filter.mp h1).1).imp id List.mem_singleton.mp
    · exact (List.mem_append.mp (List.mem_filter.mp (pyListFrom_mem h1)).1).imp
        id List.mem_singleton.mp
  · exact (List.mem_append.mp h).imp id List.mem_singleton.mp

theorem noErrAssistant_add {maxH : Nat} {hist : List Message} {r c : String}
    (h : noErrAssistant hist = true)
    (hm : (!(r == "assistant") || !("错误:".data.isPrefixOf c.data)) = true) :
    noErrAssistant (_add_message maxH hist r c) = true := by
  rw [noErrAssistant, List.all_eq_true] at h ⊢
  intro m hmem
  rcases mem_add_message hmem with h1 | h1
  · exact h m h1
  · subst h1; exact hm

/-- Attempt counter of the retry loop: at most the remaining fuel is added. -/
theorem postRetryGo_attempts_le (outcomes : Nat → AttemptOutcome) :
    ∀ fuel attempt lastExc,
      (postRetryGo outcomes attempt fuel lastExc).2 ≤ attempt + fuel := by
  intro fuel
  induction fuel with
  | zero => intro attempt lastExc; simp [postRetryGo]
  | succ n ih =>
    intro attempt lastExc
    cases ho : outcomes attempt with
    | status c =>
      simp only [postRetryGo, ho]
      split_ifs
      · have h2 := ih (attempt + 1) (some (RetryError.httpError c)); omega
      · have h2 := ih (attempt + 1) (some (RetryError.httpError c)); omega
      · show attempt + 1 ≤ attempt + (n + 1); omega
    | netError m =>
      simp only [postRetryGo, ho]
      have h2 := ih (attempt + 1) (some (RetryError.netError m)); omega

/-- One failing attempt records its exception and recurses. -/
theorem postRetryGo_step (outcomes : Nat → AttemptOutcome) (attempt fuel : Nat)
    (lastExc : Option RetryError) (h : retryFailure (outcomes attempt) = true) :
    postRetryGo outcomes attempt (fuel + 1) lastExc =
      postRetryGo outcomes (attempt + 1) fuel (some (errOf (outcomes attempt))) := by
  cases ho : outcomes attempt with
  | status c =>
    rw [ho] at h
    simp only [retryFailure, decide_eq_true_eq] at h
    simp only [postRetryGo, ho, errOf]
    split_ifs with h1 <;> rfl
  | netError m => simp [postRetryGo, ho, errOf]

theorem requireKeyObj_ne_none {key : String} {o : Option Json}
    (h : requireKeyObj key o ≠ none) :
    ∃ kvs, o = some (.obj kvs) ∧ jHasKey kvs key = true := by
  rcases o with _ | j
  · exact absurd rfl h
  · cases j with
    | obj kvs =>
      refine ⟨kvs, rfl, ?_⟩
      by_contra hk
      rw [Bool.not_eq_true] at hk
      simp [requireKeyObj, hk] at h
    | null => exact absurd rfl h
    | bool b => exact absurd rfl h
    | num raw => exact absurd rfl h
    | str s => exact absurd rfl h
    | arr xs => exact absurd rfl h

/-- With system tools denied, no Inspect/Execute phase dispatches to the
capability table. -/
theorem inspectAndAct_dSys_of_denied (cfg : LoopCfg) (reply : String) (cap : CapOut)
    (f : FetchHttpOut) (h : cfg.allowSystemTools = false) :
    (inspectAndAct cfg reply cap f).dSys = 0 := by
  simp only [inspectAndAct]
  rcases _parse_system_tool reply with _ | sp
  · rcases _parse_tool_fetch reply with _ | fp
    · rfl
    · cases hb : cfg.allowNetwork
      · simp [hb]
      · simp only [hb, Bool.not_true, Bool.false_eq_true, if_false]
        rcases _perform_fetch true fp f with ⟨e | fr, b⟩ <;> rfl
  · simp [h]

/-- With the network denied, no Inspect/Execute phase issues an HTTP fetch. -/
theorem inspectAndAct_dFetch_of_denied (cfg : LoopCfg) (reply : String) (cap : CapOut)
    (f : FetchHttpOut) (h : cfg.allowNetwork = false) :
    (inspectAndAct cfg reply cap f).dFetch = 0 := by
  simp only [inspectAndAct]
  rcases _parse_system_tool reply with _ | sp
  · rcases _parse_tool_fetch reply with _ | fp
    · rfl
    · simp [h]
  · cases hb : cfg.allowSystemTools
    · simp [hb]
    · simp only [hb, Bool.not_true, Bool.false_eq_true, if_false]
      rcases _execute_system_tool sp cap with r | m <;> rfl

/-- With system tools denied the loop performs zero gateway dispatches. -/
theorem chatToolsGo_sysExecs_of_denied (cfg : LoopCfg) (env : LoopEnv)
    (h : cfg.allowSystemTools = false) :
    ∀ fuel msg fr hist chats sys fetches,
      (chatToolsGo cfg env fuel msg fr hist chats sys fetches).sysExecs = sys := by
  intro fuel
  induction fuel with
  | zero => intros; rfl
  | succ n ih =>
    intro msg fr hist chats sys fetches
    simp only [chatToolsGo]
    rcases chat cfg.maxHistory hist msg (env.transport chats) with ⟨tokens, hist2⟩ | hist2
    · rcases tokens with _ | ⟨t, ts⟩
      · rfl
      · dsimp only
        rcases hIA : inspectAndAct cfg (String.join (t :: ts)) (env.capOut sys)
            (env.fetchHttp fetches) with ⟨out, ds, df⟩
        have hds : ds = 0 := by
          have := inspectAndAct_dSys_of_denied cfg (String.join (t :: ts)) (env.capOut sys)
            (env.fetchHttp fetches) h
          rw [hIA] at this
          exact this
        cases out with
        | halt r => simp [hds]
        | next nm => simp [ih, hds]
    · rfl

/-- With the network denied the loop performs zero outbound fetches. -/
theorem chatToolsGo_httpFetches_of_denied (cfg : LoopCfg) (env : LoopEnv)
    (h : cfg.allowNetwork = false) :
    ∀ fuel msg fr hist chats sys fetches,
      (chatToolsGo cfg env fuel msg fr hist chats sys fetches).httpFetches = fetches := by
  intro fuel
  induction fuel with
  | zero => intros; rfl
  | succ n ih =>
    intro msg fr hist chats sys fetches
    simp only [chatToolsGo]
    rcases chat cfg.maxHistory hist msg (env.transport chats) with ⟨tokens, hist2⟩ | hist2
    · rcases tokens with _ | ⟨t, ts⟩
      · rfl
      · dsimp only
        rcases hIA : inspectAndAct cfg (String.join (t :: ts)) (env.capOut sys)
            (env.fetchHttp fetches) with ⟨out, ds, df⟩
        have hdf : df = 0 := by
          have := inspectAndAct_dFetch_of_denied cfg (String.join (t :: ts)) (env.capOut sys)
            (env.fetchHttp fetches) h
          rw [hIA] at this
          exact this
        cases out with
        | halt r => simp [hdf]
        | next nm => simp [ih, hdf]
    · rfl

/-- `chat` on a well-formed chat body yields exactly the content string. -/
theorem chat_msgObjOut (maxH : Nat) (hist : List Message) (m c : String) :
    chat maxH hist m (msgObjOut c) =
      .yields [c]
        (if c ≠ "" ∧ ¬ ("错误:".data.isPrefixOf c.data) then
           _add_message maxH (_add_message maxH hist "user" m) "assistant" c
         else _add_message maxH hist "user" m) := rfl

theorem join_singleton (c : String) : String.join [c] = c := by
  show String.join [c] = c
  simp [String.join]

/-- Each call to `chatToolsGo` performs at most `fuel` further chat calls. -/
theorem chatToolsGo_chatCalls_le (cfg : LoopCfg) (env : LoopEnv) :
    ∀ fuel msg fr hist chats sys fetches,
      (chatToolsGo cfg env fuel msg fr hist chats sys fetches).chatCalls ≤ chats + fuel := by
  intro fuel
  induction fuel with
  | zero => intros; simp [chatToolsGo]
  | succ n ih =>
    intro msg fr hist chats sys fetches
    simp only [chatToolsGo]
    rcases chat cfg.maxHistory hist msg (env.transport chats) with ⟨tokens, hist2⟩ | hist2
    · rcases tokens with _ | ⟨t, ts⟩
      · show chats + 1 ≤ chats + (n + 1); omega
      · dsimp only
        rcases inspectAndAct cfg (String.join (t :: ts)) (env.capOut sys)
            (env.fetchHttp fetches) with ⟨out, ds, df⟩
        cases out with
        | halt r => show chats + 1 ≤ chats + (n + 1); omega
        | next nm =>
          have := ih nm (String.join (t :: ts)) hist2 (chats + 1) (sys + ds) (fetches + df)
          dsimp only
          omega
    · show chats + 1 ≤ chats + (n + 1); omega

/-- Against a backing service whose every reply parses a `TOOL:SYSTEM`
directive (with system tools allowed), the loop burns its whole fuel: it
makes exactly `fuel` further chat calls and ends with the last reply plus the
iteration-limit notice. -/
theorem chatToolsGo_all_sys (cfg : LoopCfg) (env : LoopEnv)
    (ha : cfg.allowSystemTools = true) :
    ∀ fuel msg fr hist chats sys fetches,
      (∀ i, i < fuel → ∃ c sp, env.transport (chats + i) = msgObjOut c ∧
         _parse_system_tool c = some sp) →
      (chatToolsGo cfg env fuel msg fr hist chats sys fetches).chatCalls = chats + fuel ∧
      ((fuel = 0 ∧ (chatToolsGo cfg env fuel msg fr hist chats sys fetches).reply =
          fr ++ iterLimitNotice) ∨
       (∃ c sp, 0 < fuel ∧ env.transport (chats + (fuel - 1)) = msgObjOut c ∧
          _parse_system_tool c = some sp ∧
          (chatToolsGo cfg env fuel msg fr hist chats sys fetches).reply =
            c ++ iterLimitNotice)) := by
  intro fuel
  induction fuel with
  | zero =>
    intro msg fr hist chats sys fetches _
    exact ⟨rfl, .inl ⟨rfl, rfl⟩⟩
  | succ n ih =>
    intro msg fr hist chats sys fetches H
    obtain ⟨c, sp, ht, hp⟩ := H 0 (by omega)
    rw [Nat.add_zero] at ht
    have hstep : ∃ nm, chatToolsGo cfg env (n + 1) msg fr hist chats sys fetches =
        chatToolsGo cfg env n nm c
          (histOf (chat cfg.maxHistory hist msg (msgObjOut c)))
          (chats + 1) (sys + 1) fetches := by
      simp only [chatToolsGo, ht, chat_msgObjOut]
      dsimp only
      rw [join_singleton]
      simp only [inspectAndAct, hp, ha, Bool.not_true, Bool.false_eq_true, if_false]
      rcases _execute_system_tool sp (env.capOut sys) with r | m
      · exact ⟨_, rfl⟩
      · exact ⟨_, rfl⟩
    obtain ⟨nm, hstep⟩ := hstep
    rw [hstep]
    have H2 : ∀ i, i < n → ∃ c2 sp2, env.transport (chats + 1 + i) = msgObjOut c2 ∧
        _parse_system_tool c2 = some sp2 := by
      intro i hi
      have := H (i + 1) (by omega)
      rw [show chats + (i + 1) = chats + 1 + i by omega] at this
      exact this
    obtain ⟨hcalls, hreply⟩ := ih nm c
      (histOf (chat cfg.maxHistory hist msg (msgObjOut c))) (chats + 1) (sys + 1) fetches H2
    refine ⟨by omega, .inr ?_⟩
    rcases hreply with ⟨hn0, hr⟩ | ⟨c2, sp2, hpos, ht2, hp2, hr⟩
    · subst hn0
      exact ⟨c, sp, by omega, by simpa using ht, hp, hr⟩
    · refine ⟨c2, sp2, by omega, ?_, hp2, hr⟩
      rw [show chats + (n + 1 - 1) = chats + 1 + (n - 1) by omega]
      exact ht2

theorem isPrefixOf_append_self {α} [BEq α] [LawfulBEq α] (l r : List α) :
    l.isPrefixOf (l ++ r) = true :=
  List.isPrefixOf_iff_prefix.mpr (List.prefix_append l r)

theorem dropWhile_append_of_all {α} (p : α → Bool) {l1 : List α} (l2 : List α)
    (h : ∀ c ∈ l1, p c = true) :
    (l1 ++ l2).dropWhile p = l2.dropWhile p := by
  induction l1 with
  | nil => rfl
  | cons a t ih =>
    rw [List.cons_append, List.dropWhile_cons, if_pos (h a (by simp))]
    exact ih (fun c hc => h c (by simp [hc]))

/-- The greedy capture: when the text after the opening brace consists of a
block ending in the last right brace followed by brace-free trailing text,
the capture is exactly that block. -/
theorem dropToLastRBrace_append {xs ys : List Char} (hys : rbraceChar ∉ ys)
    (hxs : xs.getLast? = some rbraceChar) :
    dropToLastRBrace (xs ++ ys) = some xs := by
  obtain ⟨t, ht⟩ : ∃ t, xs.reverse = rbraceChar :: t := by
    have h := List.head?_reverse xs
    rw [hxs] at h
    cases hr : xs.reverse with
    | nil => rw [hr] at h; cases h
    | cons a t =>
      rw [hr] at h
      simp at h
      exact ⟨t, by rw [h]⟩
  unfold dropToLastRBrace
  rw [List.reverse_append]
  rw [dropWhile_append_of_all _ _ ?hall]
  case hall =>
    intro c hc
    have hcy : c ∈ ys := List.mem_reverse.mp hc
    have hne : c ≠ rbraceChar := fun hcc => hys (hcc ▸ hcy)
    simpa using hne
  rw [ht, List.dropWhile_cons, if_neg (by simp)]
  show some (rbraceChar :: t).reverse = some xs
  rw [← ht, List.reverse_reverse]

/-- The anchored regex match after a marker occurrence: whitespace, an
opening brace, then greedily up to the last right brace of the text. -/
theorem matchDirectiveAt_spec (marker ws objRest tailCs : List Char)
    (hws : ∀ c ∈ ws, isPyWs c = true)
    (hobj : objRest.getLast? = some rbraceChar)
    (htail : rbraceChar ∉ tailCs) :
    matchDirectiveAt marker (marker ++ (ws ++ lbraceChar :: (objRest ++ tailCs))) =
      some (lbraceChar :: objRest) := by
  unfold matchDirectiveAt
  rw [if_pos (isPrefixOf_append_self marker _)]
  rw [List.drop_left]
  rw [dropWhile_append_of_all _ _ hws]
  rw [List.dropWhile_cons, if_neg (by decide)]
  show (if lbraceChar = lbraceChar then
          (dropToLastRBrace (objRest ++ tailCs)).map (fun b => lbraceChar :: b)
        else none) = some (lbraceChar :: objRest)
  rw [if_pos rfl, dropToLastRBrace_append htail hobj]
  rfl

/-- `re.search` takes the match at the leftmost viable position. -/
theorem searchDirective_here {marker : List Char} (rest : List Char) {p : List Char}
    (hm : marker ≠ []) (h : matchDirectiveAt marker (marker ++ rest) = some p) :
    searchDirective marker (marker ++ rest) = some p := by
  cases marker with
  | nil => exact absurd rfl hm
  | cons a as =>
    rw [List.cons_append] at h ⊢
    simp only [searchDirective, h]

/-! ### Lemmas for the eviction policy -/

theorem length_sysFilter_add_othFilter (l : List Message) :
    (sysFilter l).length + (othFilter l).length = l.length := by
  induction l with
  | nil => rfl
  | cons a t ih =>
    simp only [sysFilter, othFilter] at ih ⊢
    rw [List.filter_cons, List.filter_cons, List.length_cons]
    cases h : (a.role == "system")
    · simp only [h, Bool.not_false, if_true, Bool.false_eq_true, if_false, List.length_cons]
      omega
    · simp only [h, Bool.not_true, if_true, Bool.false_eq_true, if_false, List.length_cons]
      omega

theorem sysFilter_append (a b : List Message) :
    sysFilter (a ++ b) = sysFilter a ++ sysFilter b :=
  List.filter_append a b

theorem othFilter_append (a b : List Message) :
    othFilter (a ++ b) = othFilter a ++ othFilter b :=
  List.filter_append a b

theorem sysFilter_sysFilter (l : List Message) : sysFilter (sysFilter l) = sysFilter l := by
  apply List.filter_eq_self.mpr
  intro a ha
  exact (List.mem_filter.mp ha).2

theorem othFilter_sysFilter_eq_nil (l : List Message) : othFilter (sysFilter l) = [] := by
  apply List.filter_eq_nil_iff.mpr
  intro a ha
  have h2 := (List.mem_filter.mp ha).2
  simp [h2]

theorem sysFilter_lastN_oth (k : Nat) (l : List Message) :
    sysFilter (lastN k (othFilter l)) = [] := by
  apply List.filter_eq_nil_iff.mpr
  intro a ha
  have h2 := (List.mem_filter.mp (List.mem_of_mem_drop ha)).2
  intro hcon
  rw [hcon] at h2
  simp at h2

theorem othFilter_lastN_oth (k : Nat) (l : List Message) :
    othFilter (lastN k (othFilter l)) = lastN k (othFilter l) := by
  apply List.filter_eq_self.mpr
  intro a ha
  exact (List.mem_filter.mp (List.mem_of_mem_drop ha)).2

theorem lastN_append_one (k : Nat) (xs : List Message) (m : Message) (hk : 1 ≤ k) :
    lastN k (xs ++ [m]) = lastN (k - 1) xs ++ [m] := by
  unfold lastN
  rw [List.length_append, List.length_singleton]
  have h1 : xs.length + 1 - k = xs.length - (k - 1) := by omega
  rw [h1, List.drop_append_of_le_length (by omega)]

theorem lastN_lastN (a b : Nat) (xs : List Message) :
    lastN a (lastN b xs) = lastN (min a b) xs := by
  unfold lastN
  rw [List.length_drop, List.drop_drop]
  congr 1
  omega

theorem pyListFrom_neg (xs : List Message) (k : Nat) (hk : 0 < k) :
    pyListFrom xs (-(k : Int)) = lastN k xs := by
  unfold pyListFrom lastN
  rw [if_pos (by omega : (-(k : Int)) < 0)]
  congr 1
  omega

/-- One overflowing append in eviction terms. -/
theorem _add_message_over (maxH : Nat) (hist : List Message) (m : Message)
    (hlen : (hist ++ [m]).length > maxH)
    (hS : (sysFilter (hist ++ [m])).length < maxH) :
    _add_message maxH hist m.role m.content =
      sysFilter (hist ++ [m]) ++
        lastN (maxH - (sysFilter (hist ++ [m])).length) (othFilter (hist ++ [m])) := by
  rw [_add_message_eq, if_pos hlen, show (Message.mk m.role m.content) = m from rfl]
  have hk : (0 : Nat) < maxH - (sysFilter (hist ++ [m])).length := by omega
  have hcast : (-((maxH : Int) - ((sysFilter (hist ++ [m])).length : Int))) =
      (-(((maxH - (sysFilter (hist ++ [m])).length : Nat) : Int))) := by
    omega
  rw [hcast, pyListFrom_neg _ _ hk]

theorem appendAll_concat (maxH : Nat) (xs : List Message) (m : Message) :
    appendAll maxH (xs ++ [m]) = _add_message maxH (appendAll maxH xs) m.role m.content := by
  simp [appendAll, List.foldl_append]

/-- Below the bound, no eviction ever fires. -/
theorem appendAll_le (maxH : Nat) :
    ∀ msgs : List Message, msgs.length ≤ maxH → appendAll maxH msgs = msgs := by
  intro msgs
  induction msgs using List.reverseRecOn with
  | nil => intro _; rfl
  | append_singleton xs m ih =>
    intro h
    rw [List.length_append, List.length_singleton] at h
    rw [appendAll_concat, ih (by omega)]
    rw [_add_message_eq,
      if_neg (by rw [List.length_append, List.length_singleton]; omega)]

/-- C5 (amended), main induction: past the bound and with fewer system
messages than `max_history`, the log is every system message followed by the
most recent `max_history − #system` non-system messages. -/
theorem appendAll_over (maxH : Nat) :
    ∀ msgs : List Message, msgs.length > maxH → (sysFilter msgs).length < maxH →
      appendAll maxH msgs =
        sysFilter msgs ++ lastN (maxH - (sysFilter msgs).length) (othFilter msgs) := by
  intro msgs
  induction msgs using List.reverseRecOn with
  | nil => intro h _; simp at h
  | append_singleton xs m ih =>
    intro hlen hS
    rw [appendAll_concat]
    by_cases hxs : xs.length ≤ maxH
    · rw [appendAll_le maxH xs hxs]
      exact _add_message_over maxH xs m hlen hS
    · push_neg at hxs
      have hSapp : (sysFilter (xs ++ [m])).length =
          (sysFilter xs).length + (sysFilter [m]).length := by
        rw [sysFilter_append, List.length_append]
      have hSxs : (sysFilter xs).length < maxH := by omega
      rw [ih hxs hSxs]
      have hpart := length_sysFilter_add_othFilter xs
      have hlast_len : (lastN (maxH - (sysFilter xs).length) (othFilter xs)).length =
          maxH - (sysFilter xs).length := by
        simp only [lastN, List.length_drop]
        omega
      have hplen : ((sysFilter xs ++ lastN (maxH - (sysFilter xs).length) (othFilter xs))
          ++ [m]).length > maxH := by
        rw [List.length_append, List.length_append, List.length_singleton, hlast_len]
        omega
      have hsysP : sysFilter ((sysFilter xs ++
            lastN (maxH - (sysFilter xs).length) (othFilter xs)) ++ [m]) =
          sysFilter (xs ++ [m]) := by
        rw [sysFilter_append, sysFilter_append, sysFilter_sysFilter, sysFilter_lastN_oth,
          List.append_nil, sysFilter_append]
      have hothP : othFilter ((sysFilter xs ++
            lastN (maxH - (sysFilter xs).length) (othFilter xs)) ++ [m]) =
          lastN (maxH - (sysFilter xs).length) (othFilter xs) ++ othFilter [m] := by
        rw [othFilter_append, othFilter_append, othFilter_sysFilter_eq_nil,
          othFilter_lastN_oth, List.nil_append]
      have hSP : (sysFilter ((sysFilter xs ++
            lastN (maxH - (sysFilter xs).length) (othFilter xs)) ++ [m])).length < maxH := by
        rw [hsysP]; exact hS
      rw [_add_message_over maxH _ m hplen hSP]
      rw [hsysP, hothP, othFilter_append]
      by_cases hm : (m.role == "system") = true
      · have ho : othFilter [m] = [] := by
          simp [othFilter, List.filter_cons, hm]
        have hs : sysFilter [m] = [m] := by
          simp [sysFilter, List.filter_cons, hm]
        have hlenS : (sysFilter (xs ++ [m])).length = (sysFilter xs).length + 1 := by
          rw [hSapp, hs]; rfl
        rw [ho, hlenS, List.append_nil, List.append_nil, lastN_lastN,
          show min (maxH - ((sysFilter xs).length + 1)) (maxH - (sysFilter xs).length) =
            maxH - ((sysFilter xs).length + 1) by omega]
      · rw [Bool.not_eq_true] at hm
        have ho : othFilter [m] = [m] := by
          simp [othFilter, List.filter_cons, hm]
        have hs : sysFilter [m] = [] := by
          simp [sysFilter, List.filter_cons, hm]
        have hlenS : (sysFilter (xs ++ [m])).length = (sysFilter xs).length := by
          rw [hSapp, hs]; rfl
        rw [ho, hlenS]
        have hk1 : 1 ≤ maxH - (sysFilter xs).length := by omega
        rw [lastN_append_one _ _ _ hk1, lastN_append_one _ _ _ hk1, lastN_lastN,
          show min (maxH - (sysFilter xs).length - 1) (maxH - (sysFilter xs).length) =
            maxH - (sysFilter xs).length - 1 by omega]

/-! ## Claim theorems -/

/-- C10: calling `chat_with_tools` with an empty message returns the empty
string immediately, with zero chat POSTs, zero capability dispatches, zero
outbound fetches, and an unchanged conversation history. -/
theorem C10_empty_message_noop (cfg : LoopCfg) (env : LoopEnv) (hist : List Message) :
    chat_with_tools cfg env hist "" = ⟨"", hist, 0, 0, 0⟩ := rfl

/-- C4 counterexample: a server answering 404 on every attempt is retried —
`_post_with_retries` issues 3 POST attempts, not 1, before surfacing the
`HTTPError`; the claim's "non-retryable 4xx ... surfaced immediately without
any retry" fails on the code, whose `raise_for_status` exception is caught by
the same `RequestException` handler that retries. -/
theorem C4_counterexample :
    _post_with_retries (fun _ => AttemptOutcome.status 404) 3 =
      (.raised (.httpError 404), 3) ∧ (3 : Nat) ≠ 1 :=
  ⟨rfl, by omega⟩

/-- C4 (amended): every POST makes at most `max_retries = 3` attempts; a
server answering 503, 503, 200 succeeds on the third attempt and never makes
a fourth; 5xx statuses, network-level errors AND 4xx statuses (whose
`HTTPError` from `raise_for_status` is caught as a `RequestException`) are
all retried alike, and exhausting all attempts surfaces the last error
encountered. -/
theorem C4_retry_behavior :
    (∀ outcomes maxRetries,
       (_post_with_retries outcomes maxRetries).2 ≤ maxRetries) ∧
    _post_with_retries out503x2 3 = (.ok 200, 3) ∧
    (∀ outcomes, (∀ i, i < 3 → retryFailure (outcomes i) = true) →
       _post_with_retries outcomes 3 = (.raised (errOf (outcomes 2)), 3)) := by
  refine ⟨?_, rfl, ?_⟩
  · intro outcomes maxRetries
    simpa using postRetryGo_attempts_le outcomes maxRetries 0 none
  · intro outcomes h
    show postRetryGo outcomes 0 (2 + 1) none = _
    rw [postRetryGo_step _ _ _ _ (h 0 (by omega))]
    show postRetryGo outcomes (0 + 1) (1 + 1) _ = _
    rw [postRetryGo_step _ _ _ _ (h 1 (by omega))]
    show postRetryGo outcomes (0 + 1 + 1) (0 + 1) _ = _
    rw [postRetryGo_step _ _ _ _ (h 2 (by omega))]
    rfl

/-- C4 witness: the amended theorem applied to the 503/503/200 server and to
an always-timing-out network. -/
theorem C4_retry_behavior_witness :
    _post_with_retries out503x2 3 = (.ok 200, 3) ∧
    _post_with_retries (fun _ => AttemptOutcome.netError "timeout") 3 =
      (.raised (.netError "timeout"), 3) :=
  ⟨C4_retry_behavior.2.1,
   C4_retry_behavior.2.2 (fun _ => AttemptOutcome.netError "timeout") (fun _ _ => rfl)⟩

/-- C3 counterexample: `delete_file` on a protected path whose file does not
exist returns a plain not-found error dict with NO `requires_confirmation`
key (the existence check precedes the protected-path check), so the claim's
"every write_file or delete_file call whose file_path targets the protected
prefix returns requires_confirmation = true" fails on the code. -/
theorem C3_counterexample :
    isProtectedPath "C:\\a.txt" = true ∧
    delete_file ⟨[]⟩ "C:\\a.txt" =
      (⟨[]⟩, .obj [("success", .bool false), ("error", .str "文件不存在: C:\\a.txt")]) ∧
    ((delete_file ⟨[]⟩ "C:\\a.txt").2).get "requires_confirmation" = none :=
  ⟨rfl, rfl, rfl⟩

/-- C3 (amended): `write_file` on a protected path (and `delete_file` on a
protected path whose file exists) returns a result with
`requires_confirmation = true` and `success = false` and performs no
file-system mutation; and `_execute_system_tool` propagates any capability
result — confirmation results included — unchanged to the caller. -/
theorem C3_protected_path_confirmation :
    (∀ fs p c m, isProtectedPath p = true →
       write_file fs p c m = (fs, writeConfirmObj p c) ∧
       (writeConfirmObj p c).get "requires_confirmation" = some (.bool true) ∧
       (writeConfirmObj p c).get "success" = some (.bool false)) ∧
    (∀ fs p v, fsGet fs p = some v → isProtectedPath p = true →
       delete_file fs p = (fs, deleteConfirmObj p) ∧
       (deleteConfirmObj p).get "requires_confirmation" = some (.bool true) ∧
       (deleteConfirmObj p).get "success" = some (.bool false)) ∧
    (∀ sp r fname, sp.get "function" = some (.str fname) →
       fname ∈ TOOL_FUNCTION_NAMES →
       _execute_system_tool sp (.returns r) = .ok r) := by
  refine ⟨?_, ?_, ?_⟩
  · intro fs p c m h
    refine ⟨?_, rfl, rfl⟩
    simp [write_file, h]
  · intro fs p v hv h
    refine ⟨?_, rfl, rfl⟩
    simp [delete_file, hv, h]
  · intro sp r fname hf hmem
    simp only [TOOL_FUNCTION_NAMES, List.mem_cons, List.not_mem_nil, or_false] at hmem
    rcases hmem with rfl | rfl | rfl | rfl | rfl | rfl | rfl | rfl | rfl | rfl | rfl <;>
      simp [_execute_system_tool, hf, pyFalsy, TOOL_FUNCTION_NAMES]

/-- C1: for every configuration and environment, `chat_with_tools` performs
at most `max_tool_iterations + 1` Dispatch phases (chat calls); and with
`max_tool_iterations = 2`, system tools allowed, a nonempty message and a
backing service whose every reply carries a valid `TOOL:SYSTEM` directive,
the loop terminates after exactly 3 Dispatch phases, returning the last
reply with the iteration-limit notice appended. -/
theorem C1_dispatch_bound :
    (∀ cfg env hist msg,
       (chat_with_tools cfg env hist msg).chatCalls ≤ cfg.maxToolIterations + 1) ∧
    (∀ cfg env hist msg, cfg.maxToolIterations = 2 → cfg.allowSystemTools = true →
       msg ≠ "" →
       (∀ i, i < 3 → ∃ c sp, env.transport i = msgObjOut c ∧
          _parse_system_tool c = some sp) →
       (chat_with_tools cfg env hist msg).chatCalls = 3 ∧
       ∃ c sp, env.transport 2 = msgObjOut c ∧ _parse_system_tool c = some sp ∧
         (chat_with_tools cfg env hist msg).reply = c ++ iterLimitNotice) := by
  constructor
  · intro cfg env hist msg
    by_cases hm : msg = ""
    · simp [chat_with_tools, hm]
    · simp only [chat_with_tools, if_neg hm]
      simpa using chatToolsGo_chatCalls_le cfg env (cfg.maxToolIterations + 1) msg "" hist 0 0 0
  · intro cfg env hist msg h2 ha hm H
    have hgo := chatToolsGo_all_sys cfg env ha 3 msg "" hist 0 0 0
      (by intro i hi; simpa using H i hi)
    have hww : chat_with_tools cfg env hist msg = chatToolsGo cfg env 3 msg "" hist 0 0 0 := by
      simp [chat_with_tools, if_neg hm, h2]
    rw [hww]
    obtain ⟨hcalls, hreply⟩ := hgo
    refine ⟨by simpa using hcalls, ?_⟩
    rcases hreply with ⟨h0, _⟩ | ⟨c, sp, _, ht, hp, hr⟩
    · exact absurd h0 (by omega)
    · exact ⟨c, sp, by simpa using ht, hp, hr⟩

/-- C1 witness: against the always-`TOOL:SYSTEM` service with
`max_tool_iterations = 2`, the loop makes exactly 3 chat calls, within the
general bound. -/
theorem C1_dispatch_bound_witness :
    (chat_with_tools cfgOpen envAllSys [] "hi").chatCalls = 3 ∧
    (chat_with_tools cfgOpen envAllSys [] "hi").chatCalls ≤ cfgOpen.maxToolIterations + 1 := by
  have h := C1_dispatch_bound.2 cfgOpen envAllSys [] "hi" rfl rfl (by decide)
    (fun i _ => ⟨dirTextGetTime, .obj [("function", .str "get_time")], rfl, rfl⟩)
  exact ⟨h.1, C1_dispatch_bound.1 cfgOpen envAllSys [] "hi"⟩

/-- C2: permission gating.  With `allow_system_tools = false` the whole turn
performs zero gateway dispatches, and an iteration whose reply parses a
`TOOL:SYSTEM` directive halts with the reply plus the denial notice and no
execution; with `allow_network = false` the turn performs zero outbound
fetch requests, an iteration whose reply parses (only) a `TOOL:FETCH`
directive halts with the reply plus the denial notice, and `_perform_fetch`
itself refuses with a `PermissionError` before any request; finally, when the
first reply of a turn parses a system directive under
`allow_system_tools = false`, `chat_with_tools` terminates after that single
Dispatch phase returning the reply with the denial notice appended. -/
theorem C2_permission_gating :
    (∀ cfg env hist msg, cfg.allowSystemTools = false →
       (chat_with_tools cfg env hist msg).sysExecs = 0) ∧
    (∀ cfg env hist msg, cfg.allowNetwork = false →
       (chat_with_tools cfg env hist msg).httpFetches = 0) ∧
    (∀ cfg reply cap f sp, cfg.allowSystemTools = false →
       _parse_system_tool reply = some sp →
       inspectAndAct cfg reply cap f = ⟨.halt (reply ++ sysDeniedNotice), 0, 0⟩) ∧
    (∀ cfg reply cap f fp, cfg.allowNetwork = false →
       _parse_system_tool reply = none → _parse_tool_fetch reply = some fp →
       inspectAndAct cfg reply cap f = ⟨.halt (reply ++ netDeniedNotice), 0, 0⟩) ∧
    (∀ params out, _perform_fetch false params out =
       (.error "网络访问被禁用 (config.ollama.allow_network=False)", false)) ∧
    (∀ cfg env hist msg c sp, msg ≠ "" → cfg.allowSystemTools = false →
       env.transport 0 = msgObjOut c → _parse_system_tool c = some sp →
       chat_with_tools cfg env hist msg =
         ⟨c ++ sysDeniedNotice, histOf (chat cfg.maxHistory hist msg (msgObjOut c)),
          1, 0, 0⟩) := by
  refine ⟨?_, ?_, ?_, ?_, fun _ _ => rfl, ?_⟩
  · intro cfg env hist msg h
    by_cases hm : msg = ""
    · simp [chat_with_tools, hm]
    · simp only [chat_with_tools, if_neg hm]
      exact chatToolsGo_sysExecs_of_denied cfg env h _ msg "" hist 0 0 0
  · intro cfg env hist msg h
    by_cases hm : msg = ""
    · simp [chat_with_tools, hm]
    · simp only [chat_with_tools, if_neg hm]
      exact chatToolsGo_httpFetches_of_denied cfg env h _ msg "" hist 0 0 0
  · intro cfg reply cap f sp h hp
    simp [inspectAndAct, hp, h]
  · intro cfg reply cap f fp h hp1 hp2
    simp [inspectAndAct, hp1, hp2, h]
  · intro cfg env hist msg c sp hm h ht hp
    simp only [chat_with_tools, if_neg hm, chatToolsGo, ht, chat_msgObjOut]
    dsimp only
    rw [join_singleton]
    simp [inspectAndAct, hp, h, histOf, chat_msgObjOut]

/-- C2 witness: the theorem applied to denied configuration with a
system-directive reply, and to a concrete denied fetch. -/
theorem C2_permission_gating_witness :
    chat_with_tools cfgDenied envAllSys [] "hi" =
      ⟨dirTextGetTime ++ sysDeniedNotice,
       histOf (chat 20 [] "hi" (msgObjOut dirTextGetTime)), 1, 0, 0⟩ ∧
    _perform_fetch false (.obj [("url", .str "http://x")]) (.resp 200 "B") =
      (.error "网络访问被禁用 (config.ollama.allow_network=False)", false) :=
  ⟨C2_permission_gating.2.2.2.2.2 cfgDenied envAllSys [] "hi" dirTextGetTime
     (.obj [("function", .str "get_time")]) (by decide) rfl rfl rfl,
   C2_permission_gating.2.2.2.2.1 (.obj [("url", .str "http://x")]) (.resp 200 "B")⟩

/-- C5 counterexample: with `max_history = 20`, after 20 system appends and
one user append the slice start `-(max_history - #system)` is `-0`, which in
Python means "keep everything": the log keeps 1 non-system message where the
claim's edge case (`#system ≥ max_history`) demands
`max_history − #system = 0`. -/
theorem C5_counterexample :
    c5edge.length > 20 ∧
    (sysFilter c5edge).length = 20 ∧
    sysFilter (appendAll 20 c5edge) = sysFilter c5edge ∧
    (othFilter (appendAll 20 c5edge)).length = 1 ∧
    ¬ ((othFilter (appendAll 20 c5edge)).length = 20 - (sysFilter c5edge).length) := by
  refine ⟨by decide, by decide, by decide, by decide, by decide⟩

/-- C5 (amended): for every append sequence longer than `max_history` whose
system messages number FEWER than `max_history`, the final history is every
system message (in order) followed by exactly the `max_history − #system`
most recent non-system messages, oldest dropped first.  (In the excluded
edge case `#system ≥ max_history` the negative-or-zero Python slice start
retains all, or all but `#system − max_history`, non-system messages.) -/
theorem C5_history_eviction (maxH : Nat) (msgs : List Message)
    (hlen : msgs.length > maxH) (hS : (sysFilter msgs).length < maxH) :
    appendAll maxH msgs =
      sysFilter msgs ++ lastN (maxH - (sysFilter msgs).length) (othFilter msgs) ∧
    (lastN (maxH - (sysFilter msgs).length) (othFilter msgs)).length =
      maxH - (sysFilter msgs).length := by
  refine ⟨appendAll_over maxH msgs hlen hS, ?_⟩
  have hpart := length_sysFilter_add_othFilter msgs
  simp only [lastN, List.length_drop]
  omega

/-- C5 witness: the amended theorem applied to five appends with
`max_history = 3`. -/
theorem C5_history_eviction_witness :
    appendAll 3 msgs5 =
      sysFilter msgs5 ++ lastN (3 - (sysFilter msgs5).length) (othFilter msgs5) ∧
    (lastN (3 - (sysFilter msgs5).length) (othFilter msgs5)).length =
      3 - (sysFilter msgs5).length :=
  C5_history_eviction 3 msgs5 (by decide) (by decide)

/-- C9: a chat call failing at the transport level (`postFail`) or decode
level (`jsonFail`) yields only the error-marker string, and the history gains
the user message but no assistant message; moreover every chat outcome
preserves the invariant that no assistant-role message carries the transport
error marker, so later request payloads never contain a transport-error
string in an assistant role. -/
theorem C9_errors_not_in_history :
    (∀ maxH hist msg e,
       chat maxH hist msg (.postFail e) =
         .yields ["错误: 请求错误: " ++ e] (_add_message maxH hist "user" msg)) ∧
    (∀ maxH hist msg,
       chat maxH hist msg .jsonFail =
         .yields ["错误: 无法解析响应"] (_add_message maxH hist "user" msg)) ∧
    (∀ maxH hist msg t, noErrAssistant hist = true →
       noErrAssistant (histOf (chat maxH hist msg t)) = true) := by
  refine ⟨fun _ _ _ _ => rfl, fun _ _ _ => rfl, ?_⟩
  intro maxH hist msg t hne
  have huser : noErrAssistant (_add_message maxH hist "user" msg) = true :=
    noErrAssistant_add hne rfl
  cases t with
  | postFail e => exact huser
  | jsonFail => exact huser
  | jsonOk data =>
    rcases hec : extractContent data with he | oc
    · simpa only [chat, hec, histOf] using huser
    · rcases oc with _ | (_ | b | raw | s | xs | kvs)
      · simpa only [chat, hec, histOf] using huser
      · simpa only [chat, hec, histOf] using huser
      · simpa only [chat, hec, histOf] using huser
      · simpa only [chat, hec, histOf] using huser
      · simp only [chat, hec, histOf]
        by_cases hcond : s ≠ "" ∧ ¬ ("错误:".data.isPrefixOf s.data)
        · rw [if_pos hcond]
          refine noErrAssistant_add huser ?_
          have h2 := hcond.2
          rw [Bool.not_eq_true] at h2
          simp [h2]
        · rw [if_neg hcond]; exact huser
      · simpa only [chat, hec, histOf] using huser
      · simpa only [chat, hec, histOf] using huser

/-- C9 witness: the theorem applied to a failing POST from the empty history. -/
theorem C9_errors_not_in_history_witness :
    chat 20 [] "hi" (.postFail "boom") =
      .yields ["错误: 请求错误: boom"] [⟨"user", "hi"⟩] ∧
    noErrAssistant (histOf (chat 20 [] "hi" (.postFail "boom"))) = true :=
  ⟨C9_errors_not_in_history.1 20 [] "hi" "boom",
   C9_errors_not_in_history.2.2 20 [] "hi" (.postFail "boom") rfl⟩

/-- C7: whenever either parser yields a directive, the captured JSON parsed
to a dict carrying the required key — contrapositively, a present marker
whose JSON fails to parse or lacks the key yields no directive; a reply with
no directive is treated as the final answer by the loop (halting with the
reply unchanged, no execution); and `TOOL:SYSTEM` followed by an object with
only a `function` key yields that directive with empty `params`, while
invalid JSON after the marker yields no directive. -/
theorem C7_parse_failures_final_answer :
    (∀ text, _parse_system_tool text ≠ none →
       ∃ payload kvs, extractDirectiveJson "TOOL:SYSTEM" text = some payload ∧
         json_loads payload = some (.obj kvs) ∧ jHasKey kvs "function" = true) ∧
    (∀ text, _parse_tool_fetch text ≠ none →
       ∃ payload kvs, extractDirectiveJson "TOOL:FETCH" text = some payload ∧
         json_loads payload = some (.obj kvs) ∧ jHasKey kvs "url" = true) ∧
    (∀ cfg reply cap f, _parse_system_tool reply = none → _parse_tool_fetch reply = none →
       inspectAndAct cfg reply cap f = ⟨.halt reply, 0, 0⟩) ∧
    _parse_system_tool "TOOL:SYSTEM \x7b\"function\":\"get_time\"\x7d" =
      some (.obj [("function", .str "get_time")]) ∧
    toolParamsOf (.obj [("function", .str "get_time")]) = .obj [] ∧
    _parse_system_tool "TOOL:SYSTEM \x7binvalid json" = none := by
  refine ⟨?_, ?_, ?_, rfl, rfl, rfl⟩
  · intro text h
    simp only [_parse_system_tool] at h
    split at h
    · exact absurd rfl h
    · rcases he : extractDirectiveJson "TOOL:SYSTEM" text with _ | payload <;>
        simp only [he] at h
      · exact absurd rfl h
      · obtain ⟨kvs, hj, hk⟩ := requireKeyObj_ne_none h
        exact ⟨payload, kvs, rfl, hj, hk⟩
  · intro text h
    simp only [_parse_tool_fetch] at h
    split at h
    · exact absurd rfl h
    · rcases he : extractDirectiveJson "TOOL:FETCH" text with _ | payload <;>
        simp only [he] at h
      · exact absurd rfl h
      · obtain ⟨kvs, hj, hk⟩ := requireKeyObj_ne_none h
        exact ⟨payload, kvs, rfl, hj, hk⟩
  · intro cfg reply cap f h1 h2
    simp [inspectAndAct, h1, h2]

/-- C7 witness: the theorem applied to a reply carrying a well-formed
directive and to a directive-free reply. -/
theorem C7_parse_failures_final_answer_witness :
    (∃ payload kvs, extractDirectiveJson "TOOL:SYSTEM" dirTextGetTime = some payload ∧
       json_loads payload = some (.obj kvs) ∧ jHasKey kvs "function" = true) ∧
    inspectAndAct cfgOpen "hello" (.returns .null) (.raised "") = ⟨.halt "hello", 0, 0⟩ :=
  ⟨C7_parse_failures_final_answer.1 dirTextGetTime
     (by intro hcontra
         rw [show _parse_system_tool dirTextGetTime =
               some (.obj [("function", .str "get_time")]) from rfl] at hcontra
         exact Option.noConfusion hcontra),
   C7_parse_failures_final_answer.2.2.1 cfgOpen "hello" (.returns .null) (.raised "") rfl rfl⟩

/-- C8 counterexample: in `bothMarkersReply` both markers are textually
present, yet the greedy `TOOL:SYSTEM` capture fails to parse while the
`TOOL:FETCH` directive parses, so the loop acts on the fetch (one outbound
request, no system action) — refuting "the agent loop acts on the
TOOL:SYSTEM directive and TOOL:FETCH is ignored" for marker presence. -/
theorem C8_counterexample :
    listHasSub "TOOL:SYSTEM".data bothMarkersReply.data = true ∧
    listHasSub "TOOL:FETCH".data bothMarkersReply.data = true ∧
    _parse_system_tool bothMarkersReply = none ∧
    _parse_tool_fetch bothMarkersReply = some (.obj [("url", .str "http://x")]) ∧
    (inspectAndAct cfgOpen bothMarkersReply (.returns .null) (.resp 200 "B")).dFetch = 1 ∧
    (inspectAndAct cfgOpen bothMarkersReply (.returns .null) (.resp 200 "B")).dSys = 0 :=
  ⟨rfl, rfl, rfl, rfl, rfl, rfl⟩

/-- C8 (amended): precedence is decided by parse result, not marker
presence: whenever the `TOOL:SYSTEM` directive parses, the iteration performs
no fetch — it either halts with the permission denial or dispatches exactly
one system-capability execution. -/
theorem C8_system_parse_priority (cfg : LoopCfg) (reply : String) (cap : CapOut)
    (f : FetchHttpOut) (sp : Json) (h : _parse_system_tool reply = some sp) :
    (inspectAndAct cfg reply cap f).dFetch = 0 ∧
    (cfg.allowSystemTools = false →
       inspectAndAct cfg reply cap f = ⟨.halt (reply ++ sysDeniedNotice), 0, 0⟩) ∧
    (cfg.allowSystemTools = true → (inspectAndAct cfg reply cap f).dSys = 1) := by
  refine ⟨?_, ?_, ?_⟩
  · cases hb : cfg.allowSystemTools with
    | false => simp [inspectAndAct, h, hb]
    | true =>
      simp only [inspectAndAct, h, hb]
      cases he : _execute_system_tool sp cap <;> simp [he]
  · intro hb; simp [inspectAndAct, h, hb]
  · intro hb
    simp only [inspectAndAct, h, hb]
    cases he : _execute_system_tool sp cap <;> simp [he]

/-- C8 witness: the amended theorem applied to a reply with a parsing
`TOOL:SYSTEM` directive under permissive configuration. -/
theorem C8_system_parse_priority_witness :
    (inspectAndAct cfgOpen dirTextGetTime (.returns .null) (.raised "")).dFetch = 0 ∧
    (inspectAndAct cfgOpen dirTextGetTime (.returns .null) (.raised "")).dSys = 1 := by
  have h := C8_system_parse_priority cfgOpen dirTextGetTime (.returns .null) (.raised "")
    (.obj [("function", .str "get_time")]) rfl
  exact ⟨h.1, h.2.2 rfl⟩

/-- C6 counterexample: with trailing text containing a further right brace,
the greedy capture runs to the LAST brace and fails to parse, yielding no
directive — whereas the same text without the trailing brace yields the
directive.  This refutes "trailing text after the first object (even text
containing further right-brace characters) does not change which object is
extracted". -/
theorem C6_counterexample :
    extractDirectiveJson "TOOL:SYSTEM" "TOOL:SYSTEM \x7b\"function\":\"get_time\"\x7d x\x7d" =
      some "\x7b\"function\":\"get_time\"\x7d x\x7d" ∧
    _parse_system_tool "TOOL:SYSTEM \x7b\"function\":\"get_time\"\x7d x\x7d" = none ∧
    _parse_system_tool "TOOL:SYSTEM \x7b\"function\":\"get_time\"\x7d" =
      some (.obj [("function", .str "get_time")]) :=
  ⟨rfl, rfl, rfl⟩

/-- C6 (amended): the capture is greedy to the LAST right brace of the text,
so only brace-free trailing text leaves the extraction unchanged: for a text
`TOOL:SYSTEM <obj><tail>` where `obj` starts with the opening brace, ends
with the closing brace, and `tail` contains no right brace, the parser's
result is exactly the dict-with-`function`-key check applied to
`json.loads obj`, independent of `tail`. -/
theorem C6_greedy_extraction (obj tail : String)
    (h1 : obj.data.head? = some lbraceChar)
    (h2 : obj.data.getLast? = some rbraceChar)
    (h3 : rbraceChar ∉ tail.data) :
    _parse_system_tool ("TOOL:SYSTEM " ++ obj ++ tail) =
      requireKeyObj "function" (json_loads obj) := by
  obtain ⟨objRest, hobj⟩ : ∃ t, obj.data = lbraceChar :: t := by
    cases hd : obj.data with
    | nil => rw [hd] at h1; cases h1
    | cons a t =>
      rw [hd] at h1
      simp at h1
      exact ⟨t, by rw [h1]⟩
  have hrest : objRest.getLast? = some rbraceChar := by
    rw [hobj] at h2
    cases hrt : objRest with
    | nil =>
      rw [hrt] at h2
      simp [List.getLast?] at h2
      exact absurd h2 (by decide)
    | cons b bs =>
      rw [hrt] at h2
      rw [List.getLast?_cons_cons] at h2
      exact h2
  have htext : ("TOOL:SYSTEM " ++ obj ++ tail).data =
      "TOOL:SYSTEM".data ++ ([' '] ++ (lbraceChar :: (objRest ++ tail.data))) := by
    rw [String.data_append, String.data_append, hobj]
    rfl
  have hsearch : searchDirective "TOOL:SYSTEM".data ("TOOL:SYSTEM " ++ obj ++ tail).data =
      some (lbraceChar :: objRest) := by
    rw [htext]
    exact searchDirective_here _ (by decide)
      (matchDirectiveAt_spec _ [' '] objRest tail.data (by decide) hrest h3)
  have hextract : extractDirectiveJson "TOOL:SYSTEM" ("TOOL:SYSTEM " ++ obj ++ tail) =
      some obj := by
    unfold extractDirectiveJson
    rw [hsearch]
    show some (String.mk (lbraceChar :: objRest)) = some obj
    rw [← hobj]
  have hne : ("TOOL:SYSTEM " ++ obj ++ tail) ≠ "" := by
    intro h0
    have hdata : ("TOOL:SYSTEM " ++ obj ++ tail).data = "".data := by rw [h0]
    rw [htext] at hdata
    rw [show ("" : String).data = [] from rfl, List.append_eq_nil] at hdata
    exact absurd hdata.1 (by decide)
  simp only [_parse_system_tool, hextract, if_neg hne]

/-- C6 witness: the amended theorem applied to a concrete directive followed
by brace-free trailing text. -/
theorem C6_greedy_extraction_witness :
    _parse_system_tool
        ("TOOL:SYSTEM " ++ "\x7b\"function\":\"get_time\"\x7d" ++ " trailing text") =
      some (.obj [("function", .str "get_time")]) := by
  rw [C6_greedy_extraction "\x7b\"function\":\"get_time\"\x7d" " trailing text"
    (by decide) (by decide) (by decide)]
  rfl

/-- C3 witness: the amended theorem applied to a protected write, a
protected delete of an existing file, and the gateway propagation of the
confirmation result. -/
theorem C3_protected_path_confirmation_witness :
    write_file ⟨[]⟩ "c:\\boot.ini" "x" "w" = (⟨[]⟩, writeConfirmObj "c:\\boot.ini" "x") ∧
    delete_file ⟨[("C:\\t.txt", "data")]⟩ "C:\\t.txt" =
      (⟨[("C:\\t.txt", "data")]⟩, deleteConfirmObj "C:\\t.txt") ∧
    _execute_system_tool (.obj [("function", .str "write_file")])
      (.returns (writeConfirmObj "c:\\boot.ini" "x")) =
      .ok (writeConfirmObj "c:\\boot.ini" "x") :=
  ⟨(C3_protected_path_confirmation.1 ⟨[]⟩ "c:\\boot.ini" "x" "w" rfl).1,
   (C3_protected_path_confirmation.2.1 ⟨[("C:\\t.txt", "data")]⟩ "C:\\t.txt" "data" rfl rfl).1,
   C3_protected_path_confirmation.2.2 (.obj [("function", .str "write_file")])
     (writeConfirmObj "c:\\boot.ini" "x") "write_file" rfl (by simp [TOOL_FUNCTION_NAMES])⟩

end AiAssistant
